import Mathlib

/-!
Shallow embedding of the valuation engine in `api/_valuation.js`.

JavaScript numbers are modelled as real numbers; `Math.round` is modelled by
Mathlib's `round` (both send `x` to `⌊x + 1/2⌋`); `Math.max`/`Math.min` become
`max`/`min`.  Monetary outputs of the engine are the integers handed to the
`money` formatter, so the output record carries those integers directly.
Optional / possibly-unparseable payload fields are `Option` values: `none`
covers an absent field as well as one that `num` / `moneyNum` fails to coerce
(both helpers return the fallback in exactly those cases).  The external
estimator's parsed JSON is an `Option AIResult`: `none` is the fail-closed
path (no client, network error, unparseable body), and the numeric fields of
`AIResult` hold the values `moneyNum` extracts from the money-formatted
strings.  `nowYear`/`nowMonth` stand for `new Date().getFullYear()` and the
current UTC month, which the source reads from the environment; they are
explicit parameters here.  Purely presentational output fields (rationale,
listing copy, comps, static checklists) are not modelled; no verified
property mentions them.
-/

namespace Hullify

/-- Vessel payload (input record).  All fields optional, as in the source. -/
structure Payload where
  make : Option String := none
  model : Option String := none
  length : Option ℝ := none
  year : Option ℝ := none
  condition : Option String := none
  runs : Option String := none
  engineHours : Option ℝ := none
  trailer : Option String := none
  titleStatus : Option String := none
  hullMaterial : Option String := none
  outOfWaterYearPlus : Bool := false
  location : Option String := none

/-- One point of a trend series: `{label, price}`. -/
structure TrendPoint where
  label : String
  price : ℝ

/-- Parsed external-estimator response (post `moneyNum` coercion).
`estimate`, `rangeLow`, `rangeHigh` are the numeric values `moneyNum`
extracts (`none` when the field or the surrounding `range` object is
missing, or the string is unparseable).  `trend = none` models a missing or
non-array `trend`. -/
structure AIResult where
  estimate : Option ℝ := none
  rangeLow : Option ℝ := none
  rangeHigh : Option ℝ := none
  confidence : Option String := none
  trend : Option (List TrendPoint) := none

/-- Final valuation record.  `estimateNumber`, `low`, `high` are the integers
the source feeds to the `money` formatter. -/
structure Valuation where
  estimateNumber : ℤ
  low : ℤ
  high : ℤ
  confidence : String
  trend : Option (List TrendPoint)

/-- `clamp(n, lo, hi) = Math.max(lo, Math.min(hi, n))`. -/
noncomputable def clampR (n lo hi : ℝ) : ℝ := max lo (min hi n)

/-- Tuning knob `RANGE_WIDTH = { high: 0.08, medium: 0.12, low: 0.18 }`. -/
noncomputable def RANGE_WIDTH_high : ℝ := 0.08
noncomputable def RANGE_WIDTH_medium : ℝ := 0.12
noncomputable def RANGE_WIDTH_low : ℝ := 0.18

/-- Tuning knob `ABS_MIN_SPREAD_DOLLARS = 800`. -/
def ABS_MIN_SPREAD_DOLLARS : ℤ := 800

/-- Tuning knob `CLAMP_BAND = { low: 0.50, high: 1.60 }`. -/
noncomputable def CLAMP_BAND_low : ℝ := 0.50
noncomputable def CLAMP_BAND_high : ℝ := 1.60

/-- `String.prototype.toLowerCase()`: lowercases every character.  (Same
mapping as `String.toLower`, written over the character list so that it
reduces in the kernel.) -/
def lowerOf (s : String) : String := String.mk (s.data.map Char.toLower)

/-- Clamped length `L = clamp(num(payload.length, 20), 8, 60)`. -/
noncomputable def Lof (p : Payload) : ℝ := clampR (p.length.getD 20) 8 60

/-- `age = Math.max(0, nowYear - Y)` with
`Y = clamp(num(payload.year, 2005), 1950, nowYear + 1)`. -/
noncomputable def ageOf (nowYear : ℤ) (p : Payload) : ℝ :=
  max 0 ((nowYear : ℝ) - clampR (p.year.getD 2005) 1950 ((nowYear : ℝ) + 1))

/-- The piecewise age-depreciation fraction `dep` of `baselineGuard`. -/
noncomputable def depOf (age : ℝ) : ℝ :=
  if age ≤ 5 then 0.07 * age
  else if age ≤ 20 then 0.35 + 0.04 * (age - 5)
  else 0.95

/-- Condition multiplier lookup
`{ Excellent: 1.12, Good: 1.0, Fair: 0.70, "Needs Work": 0.45 }[c] || 1.0`. -/
noncomputable def condFactor (c : Option String) : ℝ :=
  if c = some "Excellent" then 1.12
  else if c = some "Good" then 1.0
  else if c = some "Fair" then 0.70
  else if c = some "Needs Work" then 0.45
  else 1.0

/-- Runs multiplier lookup
`{ "Yes": 1.0, "Starts but stalls": 0.75, "No": 0.55 }[r] || 1.0`. -/
noncomputable def runsFactor (r : Option String) : ℝ :=
  if r = some "Yes" then 1.0
  else if r = some "Starts but stalls" then 0.75
  else if r = some "No" then 0.55
  else 1.0

/-- Engine-hours multiplier: penalty above 800 hours (capped at 0.40), mild
bonus below 200 hours on an Excellent/Good vessel, else neutral. -/
noncomputable def hoursFactor (p : Payload) : ℝ :=
  let hours := p.engineHours.getD 0
  if 800 < hours then 1 - min 0.40 ((hours - 800) / 1000 * 0.25)
  else if 0 < hours ∧ hours < 200 ∧
      (p.condition = some "Excellent" ∨ p.condition = some "Good") then 1.03
  else 1

/-- Title-status multiplier chain of `baselineGuard`. -/
noncomputable def titleFactor (ts : Option String) : ℝ :=
  if ts = some "Bill of Sale only" then 0.85
  else if ts = some "Other" then 0.95
  else if ts = some "Loan/Lien" then 0.98
  else 1

/-- Size-tiered trailer value
`L <= 18 ? 800 : L <= 24 ? 1500 : L <= 30 ? 2500 : 3500`. -/
noncomputable def trailerAdjOf (L : ℝ) : ℝ :=
  if L ≤ 18 then 800 else if L ≤ 24 then 1500 else if L ≤ 30 then 2500 else 3500

/-- `baselineGuard(payload)`: the deterministic guard value (not displayed),
floored at $500.  Follows the source's sequential updates of `base`. -/
noncomputable def baselineGuard (nowYear : ℤ) (p : Payload) : ℤ :=
  let L := Lof p
  let age := ageOf nowYear p
  let base0 := 1200 * (max 10 (min L 55)) ^ (1.22 : ℝ)
  let base1 := base0 * (1 - min (depOf age) 0.95)
  let base2 := base1 * condFactor p.condition
  let base3 := base2 * runsFactor p.runs
  let base4 := base3 * hoursFactor p
  let base5 := if p.outOfWaterYearPlus then base4 * 0.90 else base4
  let base6 :=
    if p.trailer = some "Yes" then base5 + ((round (trailerAdjOf L * 0.4) : ℤ) : ℝ)
    else if p.trailer = some "No" then base5 - trailerAdjOf L
    else base5
  let base7 := base6 * titleFactor p.titleStatus
  let hm := lowerOf (p.hullMaterial.getD "")
  let base8 := if hm = "wood" then base7 * 0.85 else base7
  let base9 := if hm = "steel" then base8 * 0.92 else base8
  max 500 (round base9)

/-- The `ugly` red-flag predicate of `computeValuation`. -/
def uglyFlag (p : Payload) : Bool :=
  decide (p.condition = some "Needs Work") || decide (p.runs ≠ some "Yes") ||
    p.outOfWaterYearPlus || decide (p.titleStatus = some "Bill of Sale only")

/-- The three valid confidence labels. -/
def validLabels : List String := ["low", "medium", "high"]

/-- Confidence selection: the external label lowercased when truthy and
valid, else `low` for an ugly payload and `medium` otherwise. -/
def confOf (p : Payload) (ai : Option AIResult) : String :=
  let dflt := if uglyFlag p then "low" else "medium"
  match ai with
  | none => dflt
  | some a =>
    match a.confidence with
    | none => dflt
    | some c => if c ≠ "" ∧ lowerOf c ∈ validLabels then lowerOf c else dflt

/-- `bandLow = Math.max(500, Math.round(guard * CLAMP_BAND.low))`. -/
noncomputable def bandLowOf (nowYear : ℤ) (p : Payload) : ℤ :=
  max 500 (round ((baselineGuard nowYear p : ℝ) * CLAMP_BAND_low))

/-- `bandHigh = Math.round(guard * CLAMP_BAND.high)`. -/
noncomputable def bandHighOf (nowYear : ℤ) (p : Payload) : ℤ :=
  round ((baselineGuard nowYear p : ℝ) * CLAMP_BAND_high)

/-- The clamped estimate: external value when present and truthy, else the
guard, clamped into the band. -/
noncomputable def estOf (nowYear : ℤ) (p : Payload) (ai : Option AIResult) : ℝ :=
  let guard := baselineGuard nowYear p
  let raw : Option ℝ := ai.bind (fun a => a.estimate)
  let est1 : ℝ :=
    match raw with
    | some v => if v = 0 then (guard : ℝ) else v
    | none => (guard : ℝ)
  clampR est1 ((bandLowOf nowYear p : ℤ) : ℝ) ((bandHighOf nowYear p : ℤ) : ℝ)

/-- Target half-width fraction chosen by `enforceRange`:
`high → 8%`, (`low` or ugly) `→ 18%`, else `12%`. -/
noncomputable def targetOf (confidence : String) (ugly : Bool) : ℝ :=
  if confidence = "high" then RANGE_WIDTH_high
  else if confidence = "low" ∨ ugly = true then RANGE_WIDTH_low
  else RANGE_WIDTH_medium

/-- Dollar half-width `Math.max(Math.round(est * target), ABS_MIN_SPREAD_DOLLARS)`. -/
noncomputable def halfOf (est : ℝ) (confidence : String) (ugly : Bool) : ℤ :=
  max (round (est * targetOf confidence ugly)) ABS_MIN_SPREAD_DOLLARS

/-- `enforceRange(est, proposedLow, proposedHigh, confidence, ugly)`:
returns the pair `(low, high)` of the final range. -/
noncomputable def enforceRange (est : ℝ) (proposedLow proposedHigh : Option ℝ)
    (confidence : String) (ugly : Bool) : ℤ × ℤ :=
  let target := targetOf confidence ugly
  let half : ℤ := halfOf est confidence ugly
  let fallback : ℤ × ℤ := (max 500 (round (est - (half : ℝ))), round (est + (half : ℝ)))
  match proposedLow, proposedHigh with
  | some pl, some ph =>
    if pl ≤ est ∧ est ≤ ph then
      let aiHalf := max (est - pl) (ph - est)
      let aiPercent := aiHalf / est
      let maxAllowed := target
      let minAllowed := max ((ABS_MIN_SPREAD_DOLLARS : ℝ) / est) 0.04
      if aiPercent ≤ maxAllowed ∧ minAllowed ≤ aiPercent then (round pl, round ph)
      else fallback
    else fallback
  | _, _ => fallback

/-- Short month names used by `toLocaleString("en-US", { month: "short" })`. -/
def monthNamesShort : List String :=
  ["Jan", "Feb", "Mar", "Apr", "May", "Jun", "Jul", "Aug", "Sep", "Oct", "Nov", "Dec"]

/-- Label of the UTC date `Date.UTC(nowYear, m, 1)`: the constructor
normalises the (possibly negative) month index modulo 12. -/
def monthLabel (m : ℤ) : String := monthNamesShort.getD (m.emod 12).toNat ""

/-- The synthesised 12-point monthly trend series. -/
noncomputable def synthTrend (nowMonth : ℤ) (est : ℝ) : List TrendPoint :=
  (List.range 12).map (fun (i : ℕ) =>
    { label := monthLabel (nowMonth - 11 + (i : ℤ)),
      price := ((round (est * (0.90 + ((i : ℝ) / 11) * 0.15)) : ℤ) : ℝ) })

/-- Trend selection: only when requested; external series kept when it has
at least 6 points, else synthesised. -/
noncomputable def trendOf (nowMonth : ℤ) (est : ℝ) (ai : Option AIResult)
    (includeTrend : Bool) : Option (List TrendPoint) :=
  if includeTrend then
    some (match ai.bind (fun a => a.trend) with
      | some t => if 6 ≤ t.length then t else synthTrend nowMonth est
      | none => synthTrend nowMonth est)
  else none

/-- `computeValuation(payload, { includeTrend })` with the parsed external
response passed explicitly (`none` = estimator unavailable / failed). -/
noncomputable def computeValuation (nowYear nowMonth : ℤ) (p : Payload)
    (ai : Option AIResult) (includeTrend : Bool) : Valuation :=
  let est := estOf nowYear p ai
  let confidence := confOf p ai
  let aiLow : Option ℝ := ai.bind (fun a => a.rangeLow)
  let aiHigh : Option ℝ := ai.bind (fun a => a.rangeHigh)
  let enforced := enforceRange est aiLow aiHigh confidence (uglyFlag p)
  { estimateNumber := round est
    low := enforced.1
    high := enforced.2
    confidence := confidence
    trend := trendOf nowMonth est ai includeTrend }

/-! ### Rounding helpers

`Math.round` and Mathlib's `round` both compute `⌊x + 1/2⌋`. -/

lemma round_mono_le {x y : ℝ} (h : x ≤ y) : round x ≤ round y := by
  rw [round_eq, round_eq]
  exact Int.floor_le_floor (by linarith)

lemma round_le_add_half (x : ℝ) : ((round x : ℤ) : ℝ) ≤ x + 1 / 2 := by
  rw [round_eq]
  exact Int.floor_le (x + 1 / 2)

lemma sub_half_lt_round (x : ℝ) : x - 1 / 2 < ((round x : ℤ) : ℝ) := by
  rw [round_eq]
  have h := Int.lt_floor_add_one (x + 1 / 2)
  linarith

/-- For an integer `g`, rounding `g * 0.50` never goes below `g / 2`. -/
lemma half_le_round_half (g : ℤ) : (g : ℝ) / 2 ≤ ((round ((g : ℝ) * 0.50) : ℤ) : ℝ) := by
  rcases Int.even_or_odd g with ⟨k, hk⟩ | ⟨k, hk⟩
  · subst hk
    have hval : ((k + k : ℤ) : ℝ) * 0.50 = ((k : ℤ) : ℝ) := by push_cast; ring
    rw [hval, round_intCast]
    push_cast; linarith
  · subst hk
    have hval : ((2 * k + 1 : ℤ) : ℝ) * 0.50 = ((k : ℤ) : ℝ) + 1 / 2 := by push_cast; ring
    rw [hval, round_eq]
    have hfl : ⌊((k : ℤ) : ℝ) + 1 / 2 + 1 / 2⌋ = k + 1 := by
      rw [show ((k : ℤ) : ℝ) + 1 / 2 + 1 / 2 = ((k + 1 : ℤ) : ℝ) by push_cast; ring]
      exact Int.floor_intCast _
    rw [hfl]
    push_cast; linarith

/-! ### Bounds on the `length ^ 1.22` power term

`1.22 = 61/50`, so comparisons with a rational bound reduce to integer
comparisons of 50th and 61st powers. -/

lemma rpow122_pow50 {x : ℝ} (hx : 0 ≤ x) : (x ^ (1.22 : ℝ)) ^ (50 : ℕ) = x ^ (61 : ℕ) := by
  rw [← Real.rpow_natCast (x ^ (1.22 : ℝ)) 50, ← Real.rpow_mul hx, ← Real.rpow_natCast x 61]
  norm_num

lemma rpow122_le_of_pow_le {x c : ℝ} (hx : 0 ≤ x) (hc : 0 ≤ c)
    (h : x ^ (61 : ℕ) ≤ c ^ (50 : ℕ)) : x ^ (1.22 : ℝ) ≤ c := by
  have h2 : (x ^ (1.22 : ℝ)) ^ (50 : ℕ) ≤ c ^ (50 : ℕ) := by
    rw [rpow122_pow50 hx]
    exact h
  exact le_of_pow_le_pow_left (by norm_num) hc h2

lemma le_rpow122_of_pow_le {x c : ℝ} (hx : 0 ≤ x) (hc : 0 ≤ c)
    (h : c ^ (50 : ℕ) ≤ x ^ (61 : ℕ)) : c ≤ x ^ (1.22 : ℝ) := by
  have h2 : c ^ (50 : ℕ) ≤ (x ^ (1.22 : ℝ)) ^ (50 : ℕ) := by
    rw [rpow122_pow50 hx]
    exact h
  exact le_of_pow_le_pow_left (by norm_num) (Real.rpow_nonneg hx _) h2

lemma ten_rpow122_le : (10 : ℝ) ^ (1.22 : ℝ) ≤ 16.6 := by
  refine rpow122_le_of_pow_le (by norm_num) (by norm_num) ?_
  norm_num

lemma ten_rpow122_ge : (16.593 : ℝ) ≤ (10 : ℝ) ^ (1.22 : ℝ) := by
  refine le_rpow122_of_pow_le (by norm_num) (by norm_num) ?_
  norm_num

lemma eighteen_rpow122_ge : (33.9 : ℝ) ≤ (18 : ℝ) ^ (1.22 : ℝ) := by
  refine le_rpow122_of_pow_le (by norm_num) (by norm_num) ?_
  norm_num

lemma eighteen_half_rpow122_le : (18.5 : ℝ) ^ (1.22 : ℝ) ≤ 35.2 := by
  refine rpow122_le_of_pow_le (by norm_num) (by norm_num) ?_
  norm_num

lemma twentyfour_le_rpow122 : (24 : ℝ) ≤ (24 : ℝ) ^ (1.22 : ℝ) := by
  calc (24 : ℝ) = 24 ^ (1 : ℝ) := (Real.rpow_one 24).symm
    _ ≤ 24 ^ (1.22 : ℝ) := Real.rpow_le_rpow_of_exponent_le (by norm_num) (by norm_num)

/-! ### Elementary facts about the factors of `baselineGuard` -/

lemma depMul_bounds (a : ℝ) : 0.05 ≤ 1 - min (depOf a) 0.95 := by
  have h := min_le_right (depOf a) 0.95
  linarith

lemma condFactor_nonneg (c : Option String) : 0 ≤ condFactor c := by
  simp only [condFactor]
  split_ifs <;> norm_num

lemma runsFactor_nonneg (r : Option String) : 0 ≤ runsFactor r := by
  simp only [runsFactor]
  split_ifs <;> norm_num

lemma titleFactor_nonneg (ts : Option String) : 0 ≤ titleFactor ts := by
  simp only [titleFactor]
  split_ifs <;> norm_num

lemma hoursFactor_nonneg (p : Payload) : 0 ≤ hoursFactor p := by
  simp only [hoursFactor]
  split_ifs with h1 h2
  · have h := min_le_left (0.40 : ℝ) ((p.engineHours.getD 0 - 800) / 1000 * 0.25)
    linarith
  · norm_num
  · norm_num

lemma trailerAdjOf_mono {a b : ℝ} (h : a ≤ b) : trailerAdjOf a ≤ trailerAdjOf b := by
  simp only [trailerAdjOf]
  split_ifs <;> linarith

lemma trailerAdjOf_nonneg (a : ℝ) : 0 ≤ trailerAdjOf a := by
  simp only [trailerAdjOf]
  split_ifs <;> norm_num

/-! ### Basic facts about the guard, the band and the clamped estimate -/

lemma guard_ge_500 (ny : ℤ) (p : Payload) : 500 ≤ baselineGuard ny p := by
  simp only [baselineGuard]
  exact le_max_left _ _

lemma bandLowOf_ge_500 (ny : ℤ) (p : Payload) : 500 ≤ bandLowOf ny p :=
  le_max_left _ _

lemma bandLowOf_le_guard (ny : ℤ) (p : Payload) : bandLowOf ny p ≤ baselineGuard ny p := by
  have hg := guard_ge_500 ny p
  have hgr : (500 : ℝ) ≤ ((baselineGuard ny p : ℤ) : ℝ) := by exact_mod_cast hg
  simp only [bandLowOf, CLAMP_BAND_low]
  refine max_le (by omega) ?_
  have h := round_le_add_half ((baselineGuard ny p : ℝ) * 0.50)
  have h2 : ((round ((baselineGuard ny p : ℝ) * 0.50) : ℤ) : ℝ) ≤ ((baselineGuard ny p : ℤ) : ℝ) := by
    linarith
  exact_mod_cast h2

lemma guard_le_bandHighOf (ny : ℤ) (p : Payload) : baselineGuard ny p ≤ bandHighOf ny p := by
  have hg := guard_ge_500 ny p
  have hgr : (500 : ℝ) ≤ ((baselineGuard ny p : ℤ) : ℝ) := by exact_mod_cast hg
  have h := sub_half_lt_round ((baselineGuard ny p : ℝ) * 1.60)
  have h2 : ((baselineGuard ny p : ℤ) : ℝ) ≤ ((round ((baselineGuard ny p : ℝ) * 1.60) : ℤ) : ℝ) := by
    linarith
  simp only [bandHighOf, CLAMP_BAND_high]
  exact_mod_cast h2

lemma bandHighOf_ge_500 (ny : ℤ) (p : Payload) : 500 ≤ bandHighOf ny p :=
  le_trans (guard_ge_500 ny p) (guard_le_bandHighOf ny p)

lemma bandLowOf_le_bandHighOf (ny : ℤ) (p : Payload) : bandLowOf ny p ≤ bandHighOf ny p :=
  le_trans (bandLowOf_le_guard ny p) (guard_le_bandHighOf ny p)

lemma estOf_ge_bandLow (ny : ℤ) (p : Payload) (ai : Option AIResult) :
    ((bandLowOf ny p : ℤ) : ℝ) ≤ estOf ny p ai := by
  simp only [estOf, clampR]
  exact le_max_left _ _

lemma estOf_le_bandHigh (ny : ℤ) (p : Payload) (ai : Option AIResult) :
    estOf ny p ai ≤ ((bandHighOf ny p : ℤ) : ℝ) := by
  have hb : ((bandLowOf ny p : ℤ) : ℝ) ≤ ((bandHighOf ny p : ℤ) : ℝ) := by
    exact_mod_cast bandLowOf_le_bandHighOf ny p
  simp only [estOf, clampR]
  exact max_le hb (min_le_left _ _)

lemma estOf_ge_500 (ny : ℤ) (p : Payload) (ai : Option AIResult) :
    (500 : ℝ) ≤ estOf ny p ai := by
  have h1 : (500 : ℝ) ≤ ((bandLowOf ny p : ℤ) : ℝ) := by
    exact_mod_cast bandLowOf_ge_500 ny p
  exact le_trans h1 (estOf_ge_bandLow ny p ai)

lemma estOf_eq_guard (ny : ℤ) (p : Payload) (ai : Option AIResult)
    (h : ai.bind (fun a => a.estimate) = none) :
    estOf ny p ai = ((baselineGuard ny p : ℤ) : ℝ) := by
  have hl : ((bandLowOf ny p : ℤ) : ℝ) ≤ ((baselineGuard ny p : ℤ) : ℝ) := by
    exact_mod_cast bandLowOf_le_guard ny p
  have hh : ((baselineGuard ny p : ℤ) : ℝ) ≤ ((bandHighOf ny p : ℤ) : ℝ) := by
    exact_mod_cast guard_le_bandHighOf ny p
  simp only [estOf, h, clampR]
  rw [min_eq_right hh, max_eq_right hl]


lemma round_ge_int {n : ℤ} {x : ℝ} (h : ((n : ℤ) : ℝ) ≤ x) : n ≤ round x := by
  have h2 := round_mono_le h
  rwa [round_intCast] at h2

lemma round_le_int {n : ℤ} {x : ℝ} (h : x ≤ ((n : ℤ) : ℝ)) : round x ≤ n := by
  have h2 := round_mono_le h
  rwa [round_intCast] at h2

lemma halfOf_ge_800 (est : ℝ) (conf : String) (u : Bool) : 800 ≤ halfOf est conf u :=
  le_max_right _ _

/-! ### Unfolding lemmas for the assembled valuation -/

lemma computeValuation_estimateNumber (ny nm : ℤ) (p : Payload) (ai : Option AIResult)
    (inc : Bool) :
    (computeValuation ny nm p ai inc).estimateNumber = round (estOf ny p ai) := rfl

lemma computeValuation_confidence (ny nm : ℤ) (p : Payload) (ai : Option AIResult)
    (inc : Bool) :
    (computeValuation ny nm p ai inc).confidence = confOf p ai := rfl

lemma computeValuation_low (ny nm : ℤ) (p : Payload) (ai : Option AIResult) (inc : Bool) :
    (computeValuation ny nm p ai inc).low =
      (enforceRange (estOf ny p ai) (ai.bind (fun a => a.rangeLow))
        (ai.bind (fun a => a.rangeHigh)) (confOf p ai) (uglyFlag p)).1 := rfl

lemma computeValuation_high (ny nm : ℤ) (p : Payload) (ai : Option AIResult) (inc : Bool) :
    (computeValuation ny nm p ai inc).high =
      (enforceRange (estOf ny p ai) (ai.bind (fun a => a.rangeLow))
        (ai.bind (fun a => a.rangeHigh)) (confOf p ai) (uglyFlag p)).2 := rfl

lemma computeValuation_trend (ny nm : ℤ) (p : Payload) (ai : Option AIResult) (inc : Bool) :
    (computeValuation ny nm p ai inc).trend = trendOf nm (estOf ny p ai) ai inc := rfl

/-- Both components of the symmetric fallback range, for integer estimates. -/
lemma enforceRange_none_int (e : ℤ) (conf : String) (u : Bool) :
    enforceRange ((e : ℤ) : ℝ) none none conf u =
      (max 500 (e - halfOf ((e : ℤ) : ℝ) conf u), e + halfOf ((e : ℤ) : ℝ) conf u) := by
  simp only [enforceRange, Prod.mk.injEq]
  constructor
  · rw [show ((e : ℤ) : ℝ) - ((halfOf ((e : ℤ) : ℝ) conf u : ℤ) : ℝ) =
        ((e - halfOf ((e : ℤ) : ℝ) conf u : ℤ) : ℝ) by push_cast; ring, round_intCast]
  · rw [show ((e : ℤ) : ℝ) + ((halfOf ((e : ℤ) : ℝ) conf u : ℤ) : ℝ) =
        ((e + halfOf ((e : ℤ) : ℝ) conf u : ℤ) : ℝ) by push_cast; ring, round_intCast]

/-- Ordering of the enforced range around the rounded estimate, on every
path of `enforceRange`. -/
lemma enforceRange_ordering (est : ℝ) (pl ph : Option ℝ) (conf : String) (u : Bool)
    (h500 : (500 : ℝ) ≤ est) :
    (enforceRange est pl ph conf u).1 ≤ round est ∧
      round est ≤ (enforceRange est pl ph conf u).2 := by
  have hhalf : (800 : ℤ) ≤ halfOf est conf u := halfOf_ge_800 est conf u
  have hhr : (0 : ℝ) ≤ ((halfOf est conf u : ℤ) : ℝ) := by
    have h0 : (0 : ℤ) ≤ halfOf est conf u := by omega
    exact_mod_cast h0
  have hround500 : (500 : ℤ) ≤ round est := round_ge_int (by exact_mod_cast h500)
  have hfb : max 500 (round (est - ((halfOf est conf u : ℤ) : ℝ))) ≤ round est ∧
      round est ≤ round (est + ((halfOf est conf u : ℤ) : ℝ)) :=
    ⟨max_le hround500 (round_mono_le (by linarith)), round_mono_le (by linarith)⟩
  cases pl with
  | none => exact hfb
  | some l =>
    cases ph with
    | none => exact hfb
    | some h =>
      simp only [enforceRange]
      split_ifs with h1 h2
      · exact ⟨round_mono_le h1.1, round_mono_le h1.2⟩
      · exact hfb
      · exact hfb

/-- When the external estimator contributes nothing, the output fields are
the guard with the $800-floored half-width around it (low clamped at 500). -/
lemma computeValuation_none_fields (ny nm : ℤ) (p : Payload) (inc : Bool) :
    (computeValuation ny nm p none inc).estimateNumber = baselineGuard ny p ∧
    (computeValuation ny nm p none inc).low =
      max 500 (baselineGuard ny p -
        halfOf ((baselineGuard ny p : ℤ) : ℝ) (confOf p none) (uglyFlag p)) ∧
    (computeValuation ny nm p none inc).high =
      baselineGuard ny p +
        halfOf ((baselineGuard ny p : ℤ) : ℝ) (confOf p none) (uglyFlag p) := by
  have hg : estOf ny p none = ((baselineGuard ny p : ℤ) : ℝ) := estOf_eq_guard ny p none rfl
  refine ⟨?_, ?_, ?_⟩
  · rw [computeValuation_estimateNumber, hg, round_intCast]
  · rw [computeValuation_low, hg]
    rw [show (Option.bind none fun (a : AIResult) => a.rangeLow) = (none : Option ℝ) from rfl,
      show (Option.bind none fun (a : AIResult) => a.rangeHigh) = (none : Option ℝ) from rfl,
      enforceRange_none_int]
  · rw [computeValuation_high, hg]
    rw [show (Option.bind none fun (a : AIResult) => a.rangeLow) = (none : Option ℝ) from rfl,
      show (Option.bind none fun (a : AIResult) => a.rangeHigh) = (none : Option ℝ) from rfl,
      enforceRange_none_int]


/-! ### Claim theorems -/

/-- C4: for every payload, includeTrend option and external estimator result,
the valuation returned by `computeValuation` satisfies the ordering invariant
`low ≤ estimateNumber ≤ high` on the numeric values of its range and estimate
fields. -/
theorem c4_ordering (ny nm : ℤ) (p : Payload) (ai : Option AIResult) (inc : Bool) :
    (computeValuation ny nm p ai inc).low ≤ (computeValuation ny nm p ai inc).estimateNumber ∧
      (computeValuation ny nm p ai inc).estimateNumber ≤ (computeValuation ny nm p ai inc).high := by
  rw [computeValuation_low, computeValuation_estimateNumber, computeValuation_high]
  exact enforceRange_ordering _ _ _ _ _ (estOf_ge_500 ny p ai)

/-- C3 (amended): the estimate is clamped into the rounded band
`[max(500, round(guard×0.50)), round(guard×1.60)]`; consequently
`guard×0.50 ≤ estimateNumber ≤ guard×1.60 + 1/2`.  The band edges are rounded
to whole dollars, so `estimateNumber` can exceed `guard×1.60` itself by up to
$0.50 (see the counterexample to the claim as stated). -/
theorem c3_band_amended (ny nm : ℤ) (p : Payload) (ai : Option AIResult) (inc : Bool) :
    ((baselineGuard ny p : ℤ) : ℝ) * 0.50 ≤
        (((computeValuation ny nm p ai inc).estimateNumber : ℤ) : ℝ) ∧
      (((computeValuation ny nm p ai inc).estimateNumber : ℤ) : ℝ) ≤
        ((baselineGuard ny p : ℤ) : ℝ) * 1.60 + 1 / 2 := by
  have hlow : bandLowOf ny p ≤ (computeValuation ny nm p ai inc).estimateNumber := by
    rw [computeValuation_estimateNumber]
    exact round_ge_int (estOf_ge_bandLow ny p ai)
  have hhigh : (computeValuation ny nm p ai inc).estimateNumber ≤ bandHighOf ny p := by
    rw [computeValuation_estimateNumber]
    exact round_le_int (estOf_le_bandHigh ny p ai)
  constructor
  · have h2 := half_le_round_half (baselineGuard ny p)
    have h4 : round ((baselineGuard ny p : ℝ) * 0.50) ≤ bandLowOf ny p := by
      simp only [bandLowOf, CLAMP_BAND_low]
      exact le_max_right _ _
    have h3 : ((round ((baselineGuard ny p : ℝ) * 0.50) : ℤ) : ℝ) ≤
        ((bandLowOf ny p : ℤ) : ℝ) := by exact_mod_cast h4
    have h5 : ((bandLowOf ny p : ℤ) : ℝ) ≤
        (((computeValuation ny nm p ai inc).estimateNumber : ℤ) : ℝ) := by exact_mod_cast hlow
    linarith
  · have h1 : ((bandHighOf ny p : ℤ) : ℝ) ≤ (baselineGuard ny p : ℝ) * 1.60 + 1 / 2 := by
      simp only [bandHighOf, CLAMP_BAND_high]
      exact round_le_add_half _
    have h5 : (((computeValuation ny nm p ai inc).estimateNumber : ℤ) : ℝ) ≤
        ((bandHighOf ny p : ℤ) : ℝ) := by exact_mod_cast hhigh
    linarith

/-- C1 (amended): when the external estimator contributes nothing,
`high − estimateNumber ≥ 800` always holds, and the low-side spread satisfies
`estimateNumber − low ≥ min(800, estimateNumber − 500)`: `low` is additionally
clamped at $500, so the low-side spread falls below the $800 floor exactly
when the estimate is below $1300 (see the counterexample to the claim as
stated). -/
theorem c1_spread_amended (ny nm : ℤ) (p : Payload) (inc : Bool) :
    800 ≤ (computeValuation ny nm p none inc).high -
        (computeValuation ny nm p none inc).estimateNumber ∧
      min 800 ((computeValuation ny nm p none inc).estimateNumber - 500) ≤
        (computeValuation ny nm p none inc).estimateNumber -
          (computeValuation ny nm p none inc).low := by
  obtain ⟨he, hl, hh⟩ := computeValuation_none_fields ny nm p inc
  have hg := guard_ge_500 ny p
  have hhalf := halfOf_ge_800 ((baselineGuard ny p : ℤ) : ℝ) (confOf p none) (uglyFlag p)
  rw [he, hl, hh]
  omega

/-- C8: the age-depreciation multiplier applied by `baselineGuard` is
`1 − min(dep, 0.95)`, so for every age ≥ 0 the applied depreciation fraction
is at most 0.95 and the multiplier never drops below 0.05, including ages
beyond 20 years. -/
theorem c8_dep_capped (age : ℝ) (h : 0 ≤ age) :
    min (depOf age) 0.95 ≤ 0.95 ∧ 0.05 ≤ 1 - min (depOf age) 0.95 :=
  ⟨min_le_right _ _, depMul_bounds age⟩

/-- Witness for C8 at the concrete age 25 (beyond the 20-year knee). -/
theorem c8_dep_capped_witness :
    (0 : ℝ) ≤ 25 ∧
      (min (depOf 25) 0.95 ≤ 0.95 ∧ 0.05 ≤ 1 - min (depOf 25) 0.95) :=
  ⟨by norm_num, c8_dep_capped 25 (by norm_num)⟩

/-- C9: determinism of the baseline estimator — two invocations of
`baselineGuard` on the same normalized payload and the same current year
produce identical guard values. -/
theorem c9_guard_deterministic (ny : ℤ) (p q : Payload) (h : p = q) :
    baselineGuard ny p = baselineGuard ny q := by rw [h]

/-- Witness for C9: the two-run equality at a concrete payload. -/
theorem c9_guard_deterministic_witness :
    baselineGuard 2026 { length := some 24 } = baselineGuard 2026 { length := some 24 } :=
  c9_guard_deterministic 2026 { length := some 24 } { length := some 24 } rfl

/-- C10: for the empty payload with the external estimator unavailable, the
returned confidence is "low", because the absent `runs` field satisfies
`runs ≠ "Yes"` and so makes the `ugly` predicate true. -/
theorem c10_empty_payload_confidence_low :
    (computeValuation 2026 0 ({} : Payload) none false).confidence = "low" ∧
      uglyFlag ({} : Payload) = true ∧ ({} : Payload).runs ≠ some "Yes" := by
  refine ⟨?_, by decide, by decide⟩
  rw [computeValuation_confidence]
  decide


lemma synthTrend_length (nm : ℤ) (est : ℝ) : (synthTrend nm est).length = 12 := by
  simp only [synthTrend, List.length_map, List.length_range]

/-- Expected length of the returned trend series when requested: the external
series' own length when it has at least 6 points, else the synthesised 12. -/
def expectedTrendLen (ai : Option AIResult) : ℕ :=
  match ai.bind (fun a => a.trend) with
  | some t => if 6 ≤ t.length then t.length else 12
  | none => 12

/-- C2 (amended): the trend field is present exactly when `includeTrend=true`.
Its length is 12 whenever the external series has fewer than 6 points (in
particular whenever the estimator supplies none); an external series with at
least 6 points is kept verbatim at its own length, so the length is not
always 12 (see the counterexample to the claim as stated). -/
theorem c2_trend_shape_amended (ny nm : ℤ) (p : Payload) (ai : Option AIResult) :
    (computeValuation ny nm p ai false).trend = none ∧
      ((computeValuation ny nm p ai true).trend).map List.length =
        some (expectedTrendLen ai) := by
  rw [computeValuation_trend, computeValuation_trend]
  constructor
  · rfl
  · simp only [trendOf, expectedTrendLen, if_true]
    cases hb : ai.bind (fun a => a.trend) with
    | none => simp [synthTrend_length]
    | some t =>
      by_cases h6 : 6 ≤ t.length
      · simp [h6]
      · simp [h6, synthTrend_length]

/-- The six-point external trend series of the C2 counterexample. -/
def c2ExtTrend : List TrendPoint := List.replicate 6 { label := "Jan", price := 0 }

/-- External result carrying a six-point trend series. -/
def c2AIResult : AIResult := { trend := some c2ExtTrend }

/-- C2 counterexample: with `includeTrend=true` and an external trend of 6
points, the returned trend is that series verbatim, of length 6 — not 12. -/
theorem c2_trend_counterexample :
    (computeValuation 2026 0 ({} : Payload) (some c2AIResult) true).trend =
        some c2ExtTrend ∧
      c2ExtTrend.length = 6 ∧ (6 : ℕ) ≠ 12 := by
  refine ⟨?_, by simp [c2ExtTrend], by decide⟩
  rw [computeValuation_trend]
  simp [trendOf, c2AIResult, c2ExtTrend]

/-- The lowercased external confidence label, in the cases where the source's
validity test accepts it (helper stating the amended C7). -/
def validLabelOf (ai : Option AIResult) : Option String :=
  match ai with
  | none => none
  | some a =>
    match a.confidence with
    | none => none
    | some c => if c ≠ "" ∧ lowerOf c ∈ validLabels then some (lowerOf c) else none

/-- C7 (amended): the returned confidence is the external label *lowercased*
whenever that lowercased label is one of low/medium/high (so a label such as
"HIGH" is accepted case-insensitively, not compared verbatim); otherwise it
is "low" for an ugly payload and "medium" otherwise.  The returned confidence
is always one of the three valid labels. -/
theorem c7_confidence_amended (ny nm : ℤ) (p : Payload) (ai : Option AIResult) (inc : Bool) :
    (computeValuation ny nm p ai inc).confidence =
        (validLabelOf ai).getD (if uglyFlag p then "low" else "medium") ∧
      (computeValuation ny nm p ai inc).confidence ∈ validLabels := by
  rw [computeValuation_confidence]
  have hdflt : (if uglyFlag p then "low" else "medium") ∈ validLabels := by
    by_cases hu : uglyFlag p = true
    · simp [hu, validLabels]
    · simp only [Bool.not_eq_true] at hu
      simp [hu, validLabels]
  constructor
  · cases ai with
    | none => rfl
    | some a =>
      cases hc : a.confidence with
      | none => simp [confOf, validLabelOf, hc]
      | some c =>
        by_cases h : c ≠ "" ∧ lowerOf c ∈ validLabels
        · simp [confOf, validLabelOf, hc, h]
        · simp [confOf, validLabelOf, hc, h]
  · cases ai with
    | none => exact hdflt
    | some a =>
      cases hc : a.confidence with
      | none => simpa [confOf, hc] using hdflt
      | some c =>
        by_cases h : c ≠ "" ∧ lowerOf c ∈ validLabels
        · simpa [confOf, hc, h] using h.2
        · simpa [confOf, hc, h] using hdflt

/-- External result carrying the uppercase confidence label "HIGH". -/
def c7AIResult : AIResult := { confidence := some "HIGH" }

/-- C7 counterexample: the empty payload is ugly (absent `runs` ≠ "Yes") and
"HIGH" is not one of the three valid labels verbatim, so the claim as stated
predicts confidence "low"; the code lowercases the label and returns
"high". -/
theorem c7_confidence_counterexample :
    (computeValuation 2026 0 ({} : Payload) (some c7AIResult) false).confidence = "high" ∧
      uglyFlag ({} : Payload) = true ∧ ¬("HIGH" ∈ validLabels) := by
  refine ⟨?_, by decide, by decide⟩
  rw [computeValuation_confidence]
  decide


/-! ### A factored form of the guard, for monotonicity reasoning

The source multiplies `base` by its factors one at a time and adds the
trailer adjustment in the middle; regrouping, the guard is
`max 500 (round ((1200·L'^1.22·multK + trailerTerm) · tailK))` where `multK`
collects the multipliers applied before the trailer adjustment and `tailK`
the ones applied after it.  `baselineGuard_factored` proves the equality. -/

/-- Product of the multiplicative factors applied before the trailer
adjustment (age, condition, runs, hours, storage); independent of length. -/
noncomputable def multK (nowYear : ℤ) (p : Payload) : ℝ :=
  (1 - min (depOf (ageOf nowYear p)) 0.95) * condFactor p.condition * runsFactor p.runs *
    hoursFactor p * (if p.outOfWaterYearPlus then 0.90 else 1)

/-- The additive trailer adjustment of the guard. -/
noncomputable def trailerTermOf (p : Payload) : ℝ :=
  if p.trailer = some "Yes" then ((round (trailerAdjOf (Lof p) * 0.4) : ℤ) : ℝ)
  else if p.trailer = some "No" then -(trailerAdjOf (Lof p))
  else 0

/-- Product of the multiplicative factors applied after the trailer
adjustment (title status, hull material); independent of length. -/
noncomputable def tailK (p : Payload) : ℝ :=
  titleFactor p.titleStatus *
    (if lowerOf (p.hullMaterial.getD "") = "wood" then 0.85 else 1) *
    (if lowerOf (p.hullMaterial.getD "") = "steel" then 0.92 else 1)

lemma baselineGuard_factored (ny : ℤ) (p : Payload) :
    baselineGuard ny p =
      max 500 (round ((1200 * (max 10 (min (Lof p) 55)) ^ (1.22 : ℝ) * multK ny p +
        trailerTermOf p) * tailK p)) := by
  simp only [baselineGuard, multK, trailerTermOf, tailK]
  split_ifs <;> exact congrArg (fun z => max 500 (round z)) (by ring)

lemma multK_nonneg (ny : ℤ) (p : Payload) : 0 ≤ multK ny p := by
  have h1 := depMul_bounds (ageOf ny p)
  have h2 := condFactor_nonneg p.condition
  have h3 := runsFactor_nonneg p.runs
  have h4 := hoursFactor_nonneg p
  have h5 : (0 : ℝ) ≤ (if p.outOfWaterYearPlus then (0.90 : ℝ) else 1) := by
    split_ifs <;> norm_num
  have h6 : (0 : ℝ) ≤ 1 - min (depOf (ageOf ny p)) 0.95 := by linarith
  exact mul_nonneg (mul_nonneg (mul_nonneg (mul_nonneg h6 h2) h3) h4) h5

lemma tailK_nonneg (p : Payload) : 0 ≤ tailK p := by
  have h1 := titleFactor_nonneg p.titleStatus
  have h2 : (0 : ℝ) ≤ (if lowerOf (p.hullMaterial.getD "") = "wood" then (0.85 : ℝ) else 1) := by
    split_ifs <;> norm_num
  have h3 : (0 : ℝ) ≤ (if lowerOf (p.hullMaterial.getD "") = "steel" then (0.92 : ℝ) else 1) := by
    split_ifs <;> norm_num
  exact mul_nonneg (mul_nonneg h1 h2) h3

/-- C5 (amended): the guard is monotone nondecreasing in the length field
whenever the trailer field is not "No".  (With trailer "No" the size-tiered
trailer deduction grows with length and can outweigh the size-base growth,
and strict increase fails where the effective length is pinned to [10,55] or
the rounding/floor coincide — see the counterexample to the claim as
stated.) -/
theorem c5_guard_monotone_amended (ny : ℤ) (p : Payload) (l1 l2 : ℝ)
    (ht : p.trailer ≠ some "No") (hl : l1 ≤ l2) :
    baselineGuard ny { p with length := some l1 } ≤
      baselineGuard ny { p with length := some l2 } := by
  have hLof : Lof { p with length := some l1 } ≤ Lof { p with length := some l2 } := by
    simp only [Lof, clampR, Option.getD]
    exact max_le_max le_rfl (min_le_min le_rfl hl)
  have hK : multK ny { p with length := some l1 } = multK ny { p with length := some l2 } := rfl
  have hC : tailK { p with length := some l1 } = tailK { p with length := some l2 } := rfl
  rw [baselineGuard_factored, baselineGuard_factored, hK, hC]
  have hKn : 0 ≤ multK ny { p with length := some l2 } := multK_nonneg ny _
  have hCn : 0 ≤ tailK { p with length := some l2 } := tailK_nonneg _
  have hXn : (0 : ℝ) ≤ max 10 (min (Lof { p with length := some l1 }) 55) :=
    le_trans (by norm_num) (le_max_left _ _)
  have hX : max 10 (min (Lof { p with length := some l1 }) 55) ≤
      max 10 (min (Lof { p with length := some l2 }) 55) :=
    max_le_max le_rfl (min_le_min hLof le_rfl)
  have hpow : (max 10 (min (Lof { p with length := some l1 }) 55)) ^ (1.22 : ℝ) ≤
      (max 10 (min (Lof { p with length := some l2 }) 55)) ^ (1.22 : ℝ) :=
    Real.rpow_le_rpow hXn hX (by norm_num)
  have htr1 : ({ p with length := some l1 } : Payload).trailer = p.trailer := rfl
  have htr2 : ({ p with length := some l2 } : Payload).trailer = p.trailer := rfl
  have hT : trailerTermOf { p with length := some l1 } ≤
      trailerTermOf { p with length := some l2 } := by
    simp only [trailerTermOf, htr1, htr2]
    split_ifs with h1
    · have hadj := trailerAdjOf_mono hLof
      have h40 : trailerAdjOf (Lof { p with length := some l1 }) * 0.4 ≤
          trailerAdjOf (Lof { p with length := some l2 }) * 0.4 := by nlinarith
      exact_mod_cast round_mono_le h40
    · exact le_rfl
  refine max_le_max le_rfl (round_mono_le ?_)
  have hmul : 1200 * (max 10 (min (Lof { p with length := some l1 }) 55)) ^ (1.22 : ℝ) *
      multK ny { p with length := some l2 } ≤
        1200 * (max 10 (min (Lof { p with length := some l2 }) 55)) ^ (1.22 : ℝ) *
          multK ny { p with length := some l2 } := by
    have h12 : (1200 : ℝ) * (max 10 (min (Lof { p with length := some l1 }) 55)) ^ (1.22 : ℝ) ≤
        1200 * (max 10 (min (Lof { p with length := some l2 }) 55)) ^ (1.22 : ℝ) := by
      linarith
    exact mul_le_mul_of_nonneg_right h12 hKn
  exact mul_le_mul_of_nonneg_right (by linarith) hCn

/-- Witness for C5 (amended) at lengths 10 ≤ 12 with no trailer field. -/
theorem c5_guard_monotone_amended_witness :
    ({} : Payload).trailer ≠ some "No" ∧ (10 : ℝ) ≤ 12 ∧
      baselineGuard 2026 { ({} : Payload) with length := some 10 } ≤
        baselineGuard 2026 { ({} : Payload) with length := some 12 } :=
  ⟨by decide, by norm_num,
    c5_guard_monotone_amended 2026 {} 10 12 (by decide) (by norm_num)⟩


/-! ### Concrete payloads for the counterexamples and scenario checks -/

/-- An old, small vessel needing work: its guard hits the $500 floor. -/
def c1Payload : Payload :=
  { length := some 8, year := some 1950, condition := some "Needs Work" }

lemma c1Payload_guard : baselineGuard 2026 c1Payload = 500 := by
  have hL : Lof c1Payload = 8 := by
    norm_num [Lof, clampR, c1Payload, min_def, max_def]
  have hage : ageOf 2026 c1Payload = 76 := by
    norm_num [ageOf, clampR, c1Payload, min_def, max_def]
  have hK : multK 2026 c1Payload = 0.0225 := by
    have h1 : condFactor c1Payload.condition = 0.45 := by simp [c1Payload, condFactor]
    have h2 : runsFactor c1Payload.runs = 1.0 := by simp [c1Payload, runsFactor]
    have h3 : hoursFactor c1Payload = 1 := by
      simp only [hoursFactor, c1Payload]
      norm_num
    have h4 : depOf 76 = 0.95 := by norm_num [depOf]
    simp only [multK]
    rw [hage, h1, h2, h3, h4]
    norm_num [c1Payload, min_self]
  have hT : trailerTermOf c1Payload = 0 := by
    simp [trailerTermOf, c1Payload]
  have hC : tailK c1Payload = 1 := by
    have hlow : lowerOf "" = "" := by decide
    simp [tailK, titleFactor, c1Payload, hlow]
  rw [baselineGuard_factored, hL, hK, hT, hC]
  have hX : max (10 : ℝ) (min 8 55) = 10 := by norm_num [min_def, max_def]
  rw [hX]
  have hpow := ten_rpow122_le
  have hb : (1200 * (10 : ℝ) ^ (1.22 : ℝ) * 0.0225 + 0) * 1 ≤ ((500 : ℤ) : ℝ) := by
    push_cast
    nlinarith [hpow]
  have hr := round_le_int hb
  omega

/-- C1 counterexample: for the old 8 ft "Needs Work" vessel with the external
estimator unavailable, the guard (and hence the estimate) is exactly $500,
the range's low is clamped at $500, and the low-side spread is 0 < $800. -/
theorem c1_spread_counterexample :
    (computeValuation 2026 0 c1Payload none false).estimateNumber = 500 ∧
      (computeValuation 2026 0 c1Payload none false).low = 500 ∧
      (computeValuation 2026 0 c1Payload none false).estimateNumber -
          (computeValuation 2026 0 c1Payload none false).low < 800 := by
  obtain ⟨he, hl, hh⟩ := computeValuation_none_fields 2026 0 c1Payload false
  have hhalf := halfOf_ge_800 ((baselineGuard 2026 c1Payload : ℤ) : ℝ)
    (confOf c1Payload none) (uglyFlag c1Payload)
  rw [c1Payload_guard] at he hl hhalf
  rw [he, hl]
  omega

/-- A plain 8 ft 1950 vessel: its guard is exactly $996 (≡ 1 mod 5), so the
band's upper edge `round(996 × 1.60) = 1594` exceeds `996 × 1.60 = 1593.6`. -/
def c3Payload : Payload := { length := some 8, year := some 1950 }

/-- External result with the huge estimate of Scenario C. -/
def c3AIResult : AIResult := { estimate := some 999999999 }

lemma c3Payload_guard : baselineGuard 2026 c3Payload = 996 := by
  have hL : Lof c3Payload = 8 := by
    norm_num [Lof, clampR, c3Payload, min_def, max_def]
  have hage : ageOf 2026 c3Payload = 76 := by
    norm_num [ageOf, clampR, c3Payload, min_def, max_def]
  have hK : multK 2026 c3Payload = 0.05 := by
    have h1 : condFactor c3Payload.condition = 1.0 := by simp [c3Payload, condFactor]
    have h2 : runsFactor c3Payload.runs = 1.0 := by simp [c3Payload, runsFactor]
    have h3 : hoursFactor c3Payload = 1 := by
      simp only [hoursFactor, c3Payload]
      norm_num
    have h4 : depOf 76 = 0.95 := by norm_num [depOf]
    simp only [multK]
    rw [hage, h1, h2, h3, h4]
    norm_num [c3Payload, min_self]
  have hT : trailerTermOf c3Payload = 0 := by
    simp [trailerTermOf, c3Payload]
  have hC : tailK c3Payload = 1 := by
    have hlow : lowerOf "" = "" := by decide
    simp [tailK, titleFactor, c3Payload, hlow]
  rw [baselineGuard_factored, hL, hK, hT, hC]
  have hX : max (10 : ℝ) (min 8 55) = 10 := by norm_num [min_def, max_def]
  rw [hX]
  have hup := ten_rpow122_le
  have hdown := ten_rpow122_ge
  have hble : (1200 * (10 : ℝ) ^ (1.22 : ℝ) * 0.05 + 0) * 1 ≤ ((996 : ℤ) : ℝ) := by
    push_cast
    nlinarith [hup]
  have hrle := round_le_int hble
  have hhalf := sub_half_lt_round ((1200 * (10 : ℝ) ^ (1.22 : ℝ) * 0.05 + 0) * 1)
  have hrgt : (995 : ℝ) <
      ((round ((1200 * (10 : ℝ) ^ (1.22 : ℝ) * 0.05 + 0) * 1) : ℤ) : ℝ) := by
    nlinarith [hdown]
  have hrge : (995 : ℤ) < round ((1200 * (10 : ℝ) ^ (1.22 : ℝ) * 0.05 + 0) * 1) := by
    exact_mod_cast hrgt
  omega

lemma c3_bandLow : bandLowOf 2026 c3Payload = 500 := by
  rw [bandLowOf, c3Payload_guard]
  rw [show ((996 : ℤ) : ℝ) * CLAMP_BAND_low = ((498 : ℤ) : ℝ) by
    simp only [CLAMP_BAND_low]; push_cast; norm_num, round_intCast]
  omega

lemma c3_bandHigh : bandHighOf 2026 c3Payload = 1594 := by
  rw [bandHighOf, c3Payload_guard]
  have hval : ((996 : ℤ) : ℝ) * CLAMP_BAND_high = 1593.6 := by
    simp only [CLAMP_BAND_high]; push_cast; norm_num
  rw [hval]
  have h1 : round (1593.6 : ℝ) ≤ 1594 := round_le_int (by push_cast; norm_num)
  have h2 := sub_half_lt_round (1593.6 : ℝ)
  have h3 : (1593 : ℝ) < ((round (1593.6 : ℝ) : ℤ) : ℝ) := by linarith
  have h4 : (1593 : ℤ) < round (1593.6 : ℝ) := by exact_mod_cast h3
  omega

lemma c3_est : estOf 2026 c3Payload (some c3AIResult) = ((1594 : ℤ) : ℝ) := by
  have hne : ¬ ((999999999 : ℝ) = 0) := by norm_num
  simp only [estOf, c3AIResult, Option.some_bind, clampR, c3_bandLow, c3_bandHigh,
    if_neg hne]
  rw [min_eq_left (by push_cast; norm_num), max_eq_right (by push_cast; norm_num)]

/-- C3 counterexample: for the 8 ft 1950 vessel the guard is $996, the
rounded band top is `round(996 × 1.60) = 1594`, and the huge external
estimate is clamped to exactly $1594, which exceeds `guard × 1.60 = 1593.6` —
the claimed inclusion fails by the rounding of the band edge. -/
theorem c3_band_counterexample :
    baselineGuard 2026 c3Payload = 996 ∧
      (computeValuation 2026 0 c3Payload (some c3AIResult) false).estimateNumber = 1594 ∧
      ¬ ((((computeValuation 2026 0 c3Payload (some c3AIResult) false).estimateNumber : ℤ) : ℝ) ≤
          ((baselineGuard 2026 c3Payload : ℤ) : ℝ) * 1.60) := by
  have hest : (computeValuation 2026 0 c3Payload (some c3AIResult) false).estimateNumber =
      1594 := by
    rw [computeValuation_estimateNumber, c3_est, round_intCast]
  refine ⟨c3Payload_guard, hest, ?_⟩
  rw [hest, c3Payload_guard]
  push_cast
  norm_num


/-- Interior length 8.5 ft (pinned to 10 inside the power term). -/
def c5PayloadA : Payload := { length := some 8.5 }

/-- Interior length 9 ft (also pinned to 10 inside the power term). -/
def c5PayloadB : Payload := { length := some 9 }

/-- Old 18 ft vessel explicitly without a trailer. -/
def c5PayloadC : Payload :=
  { length := some 18, year := some 1950, trailer := some "No" }

/-- Old 18.5 ft vessel explicitly without a trailer (next trailer tier). -/
def c5PayloadD : Payload :=
  { length := some 18.5, year := some 1950, trailer := some "No" }

lemma c5_equal_guards : baselineGuard 2026 c5PayloadA = baselineGuard 2026 c5PayloadB := by
  have hXA : max (10 : ℝ) (min (Lof c5PayloadA) 55) = 10 := by
    norm_num [Lof, clampR, c5PayloadA, min_def, max_def]
  have hXB : max (10 : ℝ) (min (Lof c5PayloadB) 55) = 10 := by
    norm_num [Lof, clampR, c5PayloadB, min_def, max_def]
  have hK : multK 2026 c5PayloadA = multK 2026 c5PayloadB := rfl
  have hTA : trailerTermOf c5PayloadA = 0 := by simp [trailerTermOf, c5PayloadA]
  have hTB : trailerTermOf c5PayloadB = 0 := by simp [trailerTermOf, c5PayloadB]
  have hC : tailK c5PayloadA = tailK c5PayloadB := rfl
  rw [baselineGuard_factored, baselineGuard_factored, hXA, hXB, hK, hTA, hTB, hC]

lemma c5_guardC_ge : 1234 ≤ baselineGuard 2026 c5PayloadC := by
  have hL : Lof c5PayloadC = 18 := by
    norm_num [Lof, clampR, c5PayloadC, min_def, max_def]
  have hX : max (10 : ℝ) (min (18 : ℝ) 55) = 18 := by norm_num [min_def, max_def]
  have hage : ageOf 2026 c5PayloadC = 76 := by
    norm_num [ageOf, clampR, c5PayloadC, min_def, max_def]
  have hK : multK 2026 c5PayloadC = 0.05 := by
    have h1 : condFactor c5PayloadC.condition = 1.0 := by simp [c5PayloadC, condFactor]
    have h2 : runsFactor c5PayloadC.runs = 1.0 := by simp [c5PayloadC, runsFactor]
    have h3 : hoursFactor c5PayloadC = 1 := by
      simp only [hoursFactor, c5PayloadC]
      norm_num
    have h4 : depOf 76 = 0.95 := by norm_num [depOf]
    simp only [multK]
    rw [hage, h1, h2, h3, h4]
    norm_num [c5PayloadC, min_self]
  have hadj : trailerAdjOf (18 : ℝ) = 800 := by norm_num [trailerAdjOf]
  have hT : trailerTermOf c5PayloadC = -800 := by
    have htr : c5PayloadC.trailer = some "No" := rfl
    rw [trailerTermOf, htr, hL, hadj]
    simp
  have hC : tailK c5PayloadC = 1 := by
    have hlow : lowerOf "" = "" := by decide
    simp [tailK, titleFactor, c5PayloadC, hlow]
  rw [baselineGuard_factored, hL, hX, hK, hT, hC]
  have hpow := eighteen_rpow122_ge
  have hge : ((1234 : ℤ) : ℝ) ≤ (1200 * (18 : ℝ) ^ (1.22 : ℝ) * 0.05 + -800) * 1 := by
    push_cast
    nlinarith [hpow]
  have h5 := round_ge_int hge
  omega

lemma c5_guardD_le : baselineGuard 2026 c5PayloadD ≤ 612 := by
  have hL : Lof c5PayloadD = 18.5 := by
    norm_num [Lof, clampR, c5PayloadD, min_def, max_def]
  have hX : max (10 : ℝ) (min (18.5 : ℝ) 55) = 18.5 := by norm_num [min_def, max_def]
  have hage : ageOf 2026 c5PayloadD = 76 := by
    norm_num [ageOf, clampR, c5PayloadD, min_def, max_def]
  have hK : multK 2026 c5PayloadD = 0.05 := by
    have h1 : condFactor c5PayloadD.condition = 1.0 := by simp [c5PayloadD, condFactor]
    have h2 : runsFactor c5PayloadD.runs = 1.0 := by simp [c5PayloadD, runsFactor]
    have h3 : hoursFactor c5PayloadD = 1 := by
      simp only [hoursFactor, c5PayloadD]
      norm_num
    have h4 : depOf 76 = 0.95 := by norm_num [depOf]
    simp only [multK]
    rw [hage, h1, h2, h3, h4]
    norm_num [c5PayloadD, min_self]
  have hadj : trailerAdjOf (18.5 : ℝ) = 1500 := by norm_num [trailerAdjOf]
  have hT : trailerTermOf c5PayloadD = -1500 := by
    have htr : c5PayloadD.trailer = some "No" := rfl
    rw [trailerTermOf, htr, hL, hadj]
    simp
  have hC : tailK c5PayloadD = 1 := by
    have hlow : lowerOf "" = "" := by decide
    simp [tailK, titleFactor, c5PayloadD, hlow]
  rw [baselineGuard_factored, hL, hX, hK, hT, hC]
  have hpow := eighteen_half_rpow122_le
  have hle : (1200 * (18.5 : ℝ) ^ (1.22 : ℝ) * 0.05 + -1500) * 1 ≤ ((612 : ℤ) : ℝ) := by
    push_cast
    nlinarith [hpow]
  have h5 := round_le_int hle
  omega

/-- C5 counterexample: the interior lengths 8.5 < 9 give *equal* guards (the
power term pins lengths below 10 ft), refuting the claimed strict increase;
and with trailer "No" the lengths 18 < 18.5 give guards ≥ 1234 vs ≤ 612 (the
trailer deduction jumps from $800 to $1500 across the 18 ft tier), refuting
even non-strict monotonicity. -/
theorem c5_guard_monotone_counterexample :
    ¬ (baselineGuard 2026 c5PayloadA < baselineGuard 2026 c5PayloadB) ∧
      ¬ (baselineGuard 2026 c5PayloadC ≤ baselineGuard 2026 c5PayloadD) := by
  constructor
  · rw [c5_equal_guards]
    omega
  · have h1 := c5_guardC_ge
    have h2 := c5_guardD_le
    omega

/-- The payload of Scenario A. -/
def scenarioAPayload : Payload :=
  { length := some 24, year := some 2015, condition := some "Good", runs := some "Yes",
    engineHours := some 150, trailer := some "Yes", titleStatus := some "Clean" }

lemma scenarioA_guard_ge (ny : ℤ) (hny : 2015 ≤ ny) :
    2083 ≤ baselineGuard ny scenarioAPayload := by
  have hL : Lof scenarioAPayload = 24 := by
    norm_num [Lof, clampR, scenarioAPayload, min_def, max_def]
  have hX : max (10 : ℝ) (min (24 : ℝ) 55) = 24 := by norm_num [min_def, max_def]
  have hm := depMul_bounds (ageOf ny scenarioAPayload)
  have hK : multK ny scenarioAPayload =
      (1 - min (depOf (ageOf ny scenarioAPayload)) 0.95) * 1.03 := by
    have h1 : condFactor scenarioAPayload.condition = 1.0 := by
      simp [scenarioAPayload, condFactor]
    have h2 : runsFactor scenarioAPayload.runs = 1.0 := by
      simp [scenarioAPayload, runsFactor]
    have h3 : hoursFactor scenarioAPayload = 1.03 := by
      simp only [hoursFactor, scenarioAPayload]
      norm_num
    have ho : scenarioAPayload.outOfWaterYearPlus = false := rfl
    simp only [multK]
    rw [h1, h2, h3, ho]
    norm_num
  have hT : trailerTermOf scenarioAPayload = 600 := by
    have hadj : trailerAdjOf (24 : ℝ) = 1500 := by norm_num [trailerAdjOf]
    have h6 : round ((1500 : ℝ) * 0.4) = 600 := by
      rw [show (1500 : ℝ) * 0.4 = ((600 : ℤ) : ℝ) by push_cast; norm_num, round_intCast]
    have htr : scenarioAPayload.trailer = some "Yes" := rfl
    rw [trailerTermOf, htr, hL, hadj, h6]
    simp
  have hC : tailK scenarioAPayload = 1 := by
    have hlow : lowerOf "" = "" := by decide
    simp [tailK, titleFactor, scenarioAPayload, hlow]
  rw [baselineGuard_factored, hL, hX, hK, hT, hC]
  have hpow := twentyfour_le_rpow122
  have hge : ((2083 : ℤ) : ℝ) ≤ (1200 * (24 : ℝ) ^ (1.22 : ℝ) *
      ((1 - min (depOf (ageOf ny scenarioAPayload)) 0.95) * 1.03) + 600) * 1 := by
    push_cast
    nlinarith [hpow, hm]
  have h5 := round_ge_int hge
  omega

/-- C6: Scenario A — for the 24 ft 2015 "Good" running vessel with trailer
and clean title, external estimator unavailable, the estimate equals the
baseline guard exactly, the confidence is "medium", and the range is
symmetric around the estimate with half-width
`max(round(guard × 12%), $800)` (the ±12% medium width subject to the $800
floor; the $500 low-clamp does not bind because the guard exceeds $2083). -/
theorem c6_scenarioA (ny nm : ℤ) (hny : 2015 ≤ ny) :
    (computeValuation ny nm scenarioAPayload none false).estimateNumber =
        baselineGuard ny scenarioAPayload ∧
      (computeValuation ny nm scenarioAPayload none false).confidence = "medium" ∧
      (computeValuation ny nm scenarioAPayload none false).low =
        baselineGuard ny scenarioAPayload -
          max (round ((baselineGuard ny scenarioAPayload : ℝ) * RANGE_WIDTH_medium)) 800 ∧
      (computeValuation ny nm scenarioAPayload none false).high =
        baselineGuard ny scenarioAPayload +
          max (round ((baselineGuard ny scenarioAPayload : ℝ) * RANGE_WIDTH_medium)) 800 := by
  obtain ⟨he, hl, hh⟩ := computeValuation_none_fields ny nm scenarioAPayload false
  have hconf : confOf scenarioAPayload none = "medium" := by decide
  have hu : uglyFlag scenarioAPayload = false := by decide
  have hhalf_eq : halfOf ((baselineGuard ny scenarioAPayload : ℤ) : ℝ)
      (confOf scenarioAPayload none) (uglyFlag scenarioAPayload) =
      max (round ((baselineGuard ny scenarioAPayload : ℝ) * RANGE_WIDTH_medium)) 800 := by
    have ht : targetOf "medium" false = RANGE_WIDTH_medium := by
      simp [targetOf]
    rw [halfOf, hconf, hu, ht]
    rfl
  have hg := scenarioA_guard_ge ny hny
  have hhalf_le : max (round ((baselineGuard ny scenarioAPayload : ℝ) * RANGE_WIDTH_medium)) 800 ≤
      baselineGuard ny scenarioAPayload - 500 := by
    have hgr : (2083 : ℝ) ≤ (baselineGuard ny scenarioAPayload : ℝ) := by exact_mod_cast hg
    have h1 : ((round ((baselineGuard ny scenarioAPayload : ℝ) * RANGE_WIDTH_medium) : ℤ) : ℝ) ≤
        (baselineGuard ny scenarioAPayload : ℝ) * 0.12 + 1 / 2 := by
      calc ((round ((baselineGuard ny scenarioAPayload : ℝ) * RANGE_WIDTH_medium) : ℤ) : ℝ) ≤
          (baselineGuard ny scenarioAPayload : ℝ) * RANGE_WIDTH_medium + 1 / 2 :=
            round_le_add_half _
        _ = (baselineGuard ny scenarioAPayload : ℝ) * 0.12 + 1 / 2 := by
            rw [RANGE_WIDTH_medium]
    have h2 : ((round ((baselineGuard ny scenarioAPayload : ℝ) * RANGE_WIDTH_medium) : ℤ) : ℝ) ≤
        ((baselineGuard ny scenarioAPayload - 500 : ℤ) : ℝ) := by
      push_cast
      linarith
    have h3 : round ((baselineGuard ny scenarioAPayload : ℝ) * RANGE_WIDTH_medium) ≤
        baselineGuard ny scenarioAPayload - 500 := by exact_mod_cast h2
    omega
  refine ⟨he, ?_, ?_, ?_⟩
  · rw [computeValuation_confidence, hconf]
  · rw [hl, hhalf_eq]
    omega
  · rw [hh, hhalf_eq]

/-- Witness for C6 at the current year 2026. -/
theorem c6_scenarioA_witness :
    (2015 : ℤ) ≤ 2026 ∧
      ((computeValuation 2026 0 scenarioAPayload none false).estimateNumber =
          baselineGuard 2026 scenarioAPayload ∧
        (computeValuation 2026 0 scenarioAPayload none false).confidence = "medium" ∧
        (computeValuation 2026 0 scenarioAPayload none false).low =
          baselineGuard 2026 scenarioAPayload -
            max (round ((baselineGuard 2026 scenarioAPayload : ℝ) * RANGE_WIDTH_medium)) 800 ∧
        (computeValuation 2026 0 scenarioAPayload none false).high =
          baselineGuard 2026 scenarioAPayload +
            max (round ((baselineGuard 2026 scenarioAPayload : ℝ) * RANGE_WIDTH_medium)) 800) :=
  ⟨by norm_num, c6_scenarioA 2026 0 (by norm_num)⟩

end Hullify
